import Mathlib

/-!
Verification of the Multi-Client TCP Chat Server.

A shallow embedding of `src/windows/server.cpp` and `src/windows/client.cpp`.

Sockets (`SOCKET`, an unsigned 64-bit handle on Windows) are modelled as `Nat`;
the registry `client_sockets` (a `std::vector<SOCKET>` guarded by
`clients_mutex`) is a `List Nat`.  Since every registry access in the source —
including all the sends inside `broadcast_message` — happens while holding the
single `clients_mutex`, the concurrent execution linearises into a sequence of
atomic operations on the registry, which is how the transition system below
models it.  Side effects are recorded as explicit event traces.
-/

namespace ChatServer

/-- The Windows `INVALID_SOCKET` value, `(SOCKET)(~0)`: the all-ones 64-bit value. -/
def INVALID_SOCKET : Nat := 2 ^ 64 - 1

/-- The literal `-1` passed as a `SOCKET` argument in
`broadcast_message(disconnect_msg, -1)` converts to `2^64 - 1`. -/
def minusOneAsSocket : Nat := (2 ^ 64 - 1) % 2 ^ 64

/-- Events emitted by the server code, in program order.  `lockEv`/`unlockEv`
are the acquisition and release of `clients_mutex` by a `std::lock_guard`;
`sendEv` is a call to `send`; `sendFailLogEv` is the `std::cerr` line on a
failed send; `removeEv` is the erase/remove of a socket from `client_sockets`;
`closeEv` is `closesocket`; `recvEv` is a call to `recv`; `acceptLogEv` is the
`std::cerr` line on a failed `accept`; `connectLogEv` is the
"New client connected" line; `spawnEv` is the detached `handle_client` thread. -/
inductive SrvEv where
  | lockEv : SrvEv
  | unlockEv : SrvEv
  | sendEv (sock : Nat) (msg : String) : SrvEv
  | sendFailLogEv (sock : Nat) : SrvEv
  | removeEv (sock : Nat) : SrvEv
  | closeEv (sock : Nat) : SrvEv
  | recvEv (sock : Nat) : SrvEv
  | acceptLogEv (errCode : Nat) : SrvEv
  | connectLogEv : SrvEv
  | spawnEv (sock : Nat) : SrvEv
  deriving DecidableEq, Repr

/-- Embeds `broadcast_message`:
```cpp
void broadcast_message(const std::string &message, SOCKET sender_socket) {
    std::lock_guard<std::mutex> lock(clients_mutex);
    for (SOCKET socket : client_sockets) {
        if (socket != sender_socket) {
            if (send(socket, message.c_str(), message.length(), 0) == SOCKET_ERROR) {
                std::cerr << "Send failed with error: " << WSAGetLastError() << std::endl;
            }
        }
    }
}
```
The trace of one call: the `lock_guard` acquires `clients_mutex` on entry and
releases it when the function returns; in between, one `send` is attempted per
registered socket different from `sender_socket`, in registry order, a failed
send (`sendFails sock = true`) being logged and the loop carrying on.  The
function never mutates `client_sockets`. -/
def broadcast_message (client_sockets : List Nat) (message : String)
    (sender_socket : Nat) (sendFails : Nat → Bool) : List SrvEv :=
  SrvEv.lockEv ::
    ((client_sockets.filter (fun s => s ≠ sender_socket)).flatMap
      (fun s => SrvEv.sendEv s message ::
        (if sendFails s then [SrvEv.sendFailLogEv s] else []))) ++
    [SrvEv.unlockEv]

/-- Embeds `broadcast_message` as a step on the registry: it reads `client_sockets`
but never writes it, so the registry after the call equals the one before. -/
def broadcast_run (client_sockets : List Nat) (message : String)
    (sender_socket : Nat) (sendFails : Nat → Bool) : List Nat × List SrvEv :=
  (client_sockets, broadcast_message client_sockets message sender_socket sendFails)

/-- The sockets that `send` is attempted on, in order, over a trace. -/
def sendTargets (evs : List SrvEv) : List Nat :=
  evs.flatMap (fun e => match e with | SrvEv.sendEv s _ => [s] | _ => [])

/-- The sockets whose failed send was logged in a trace. -/
def failLogTargets (evs : List SrvEv) : List Nat :=
  evs.flatMap (fun e => match e with | SrvEv.sendFailLogEv s => [s] | _ => [])

/-- The sockets that `send` is attempted on while `clients_mutex` is held.
The boolean argument is the lock state at the start of the trace. -/
def sendsWhileLocked : List SrvEv → Bool → List Nat
  | [], _ => []
  | SrvEv.lockEv :: rest, _ => sendsWhileLocked rest true
  | SrvEv.unlockEv :: rest, _ => sendsWhileLocked rest false
  | SrvEv.sendEv s _ :: rest, held =>
      (if held then [s] else []) ++ sendsWhileLocked rest held
  | _ :: rest, held => sendsWhileLocked rest held

/-- Embeds `client_sockets.erase(std::remove(begin, end, client_socket), end)`:
the erase–remove idiom deletes every occurrence of `client_socket`. -/
def remove_client (client_sockets : List Nat) (client_socket : Nat) : List Nat :=
  client_sockets.filter (fun s => s ≠ client_socket)

/-- Embeds `client_sockets.push_back(client_socket)` in the accept loop: an
unconditional append, with no duplicate check. -/
def add_client (client_sockets : List Nat) (client_socket : Nat) : List Nat :=
  client_sockets ++ [client_socket]

/-- Embeds `std::string client_id = "Client " + std::to_string(client_socket);`. -/
def client_id (client_socket : Nat) : String :=
  "Client " ++ toString client_socket

/-- One iteration of the `while (true)` loop of `handle_client`, given the
result of `recv` (`bytes_received`, and the received bytes when positive).
Returns the registry after the iteration, the events of the iteration, and
whether the loop continues (`false` = the `break` was reached). -/
def handle_iter (client_sockets : List Nat) (client_socket : Nat)
    (bytes_received : Int) (buffer : String) (sendFails : Nat → Bool) :
    List Nat × List SrvEv × Bool :=
  if bytes_received > 0 then
    let message := buffer
    let broadcast_msg := client_id client_socket ++ ": " ++ message
    (client_sockets,
      broadcast_message client_sockets broadcast_msg client_socket sendFails,
      true)
  else
    let client_sockets' := remove_client client_sockets client_socket
    let disconnect_msg := client_id client_socket ++ " has left the chat."
    (client_sockets',
      SrvEv.removeEv client_socket ::
        broadcast_message client_sockets' disconnect_msg minusOneAsSocket sendFails ++
        [SrvEv.closeEv client_socket],
      false)

/-- The full `handle_client` loop over a list of successive `recv` outcomes
(each an `Int` result paired with the bytes read when positive).  Each
iteration starts with the blocking `recv`; after the `break` in the
`bytes_received <= 0` branch, no further iteration runs. -/
def session_loop (client_sockets : List Nat) (client_socket : Nat)
    (recvs : List (Int × String)) (sendFails : Nat → Bool) :
    List Nat × List SrvEv :=
  match recvs with
  | [] => (client_sockets, [])
  | (n, buf) :: rest =>
    let step := handle_iter client_sockets client_socket n buf sendFails
    if step.2.2 then
      let t := session_loop step.1 client_socket rest sendFails
      (t.1, SrvEv.recvEv client_socket :: step.2.1 ++ t.2)
    else
      (step.1, SrvEv.recvEv client_socket :: step.2.1)

/-- Loop control of the accept loop. -/
inductive LoopAction where
  | continueLoop : LoopAction
  | terminate : LoopAction
  deriving DecidableEq, Repr

/-- One iteration of the accept loop in `main`.  `accepted` is the return
value of `accept` (`INVALID_SOCKET` signals an error, `errCode` the
accompanying `WSAGetLastError()`).  On error the server logs and `continue`s;
on success it logs, appends the socket to `client_sockets` under the mutex,
and spawns a detached `handle_client` thread.  No branch leaves the loop. -/
def accept_iter (client_sockets : List Nat) (accepted : Nat) (errCode : Nat) :
    List Nat × List SrvEv × LoopAction :=
  if accepted = INVALID_SOCKET then
    (client_sockets, [SrvEv.acceptLogEv errCode], LoopAction.continueLoop)
  else
    (add_client client_sockets accepted,
      [SrvEv.connectLogEv, SrvEv.spawnEv accepted],
      LoopAction.continueLoop)

/-- The registry operations, linearised by `clients_mutex` (every access in
the source holds it): the accept loop's `push_back`, the handler's
erase–remove, and a whole `broadcast_message` call. -/
inductive Op where
  | add (s : Nat) : Op
  | remove (s : Nat) : Op
  | bcast (msg : String) (sender : Nat) : Op
  deriving DecidableEq, Repr

/-- Effect of one linearised operation on the registry. -/
def applyOp (reg : List Nat) : Op → List Nat
  | Op.add s => add_client reg s
  | Op.remove s => remove_client reg s
  | Op.bcast _ _ => reg

/-- The sockets a linearised operation sends to: only a broadcast sends, and
only to registered sockets other than the sender. -/
def opSends (reg : List Nat) : Op → List Nat
  | Op.bcast _ sender => reg.filter (fun s => s ≠ sender)
  | _ => []

/-- All sockets sent to over a sequence of linearised operations. -/
def runSends (reg : List Nat) : List Op → List Nat
  | [] => []
  | op :: ops => opSends reg op ++ runSends (applyOp reg op) ops

end ChatServer

namespace ChatClient

/-- Embeds `std::getline(std::cin, line)` on a modelled input stream: fails (stream
exhausted) on empty input; otherwise stores the characters up to the first
`'\n'` — or up to end of input when no newline remains — and consumes the
delimiter without storing it. -/
def getline : List Char → Option (List Char × List Char)
  | [] => none
  | c :: cs =>
    some ((c :: cs).takeWhile (fun ch => ch ≠ '\n'),
      ((c :: cs).dropWhile (fun ch => ch ≠ '\n')).drop 1)

/-- Embeds `send_messages`:
```cpp
void send_messages(SOCKET sock) {
    std::string line;
    std::cout << "> " << std::flush;
    while (std::getline(std::cin, line)) {
        if (!line.empty()) {
            if (send(sock, line.c_str(), line.length(), 0) == SOCKET_ERROR) {
                std::cerr << "Send failed with error: " << WSAGetLastError() << std::endl;
                break;
            }
        }
        std::cout << "> " << std::flush;
    }
}
```
The byte sequences passed to `send`, in order, over the modelled input
stream: an empty line sends nothing; a non-empty line is sent as-is (its
newline was already consumed by `getline`); a failed send is still attempted
(so still listed) but breaks the loop. -/
def send_messages (sendFails : List Char → Bool) (input : List Char) :
    List (List Char) :=
  match h : getline input with
  | none => []
  | some (line, rest) =>
    if line.isEmpty then send_messages sendFails rest
    else if sendFails line then [line]
    else line :: send_messages sendFails rest
termination_by input.length
decreasing_by
  all_goals
    cases input with
    | nil => simp [getline] at h
    | cons c cs =>
      simp only [getline, Option.some.injEq, Prod.mk.injEq] at h
      obtain ⟨h1, h2⟩ := h
      subst h2
      have hle : ((c :: cs).dropWhile (fun ch => ch ≠ '\n')).length ≤
          (c :: cs).length := (List.dropWhile_sublist _).length_le
      simp only [List.length_drop, List.length_cons] at hle ⊢
      omega

/-- The successive lines `std::getline` yields from the modelled input
stream (each already stripped of its terminating newline). -/
def inputLines (input : List Char) : List (List Char) :=
  match h : getline input with
  | none => []
  | some (line, rest) => line :: inputLines rest
termination_by input.length
decreasing_by
  cases input with
  | nil => simp [getline] at h
  | cons c cs =>
    simp only [getline, Option.some.injEq, Prod.mk.injEq] at h
    obtain ⟨h1, h2⟩ := h
    subst h2
    have hle : ((c :: cs).dropWhile (fun ch => ch ≠ '\n')).length ≤
        (c :: cs).length := (List.dropWhile_sublist _).length_le
    simp only [List.length_drop, List.length_cons] at hle ⊢
    omega

end ChatClient

namespace ChatServer

/-! ## Helper lemmas -/

/-- The send attempts of one `broadcast_message` call are exactly the
registered sockets other than the sender, in registry order. -/
theorem sendTargets_broadcast (cs : List Nat) (msg : String) (sender : Nat)
    (f : Nat → Bool) :
    sendTargets (broadcast_message cs msg sender f) =
      cs.filter (fun s => s ≠ sender) := by
  unfold broadcast_message sendTargets
  simp only [List.flatMap_cons, List.flatMap_append]
  induction cs.filter (fun s => s ≠ sender) with
  | nil => simp
  | cons a l ih =>
    simp only [List.flatMap_cons] at *
    by_cases h : f a <;> simp [h] at ih ⊢ <;> exact ih

theorem sendsWhileLocked_append (l₁ l₂ : List SrvEv) (b : Bool) :
    ∃ b', sendsWhileLocked (l₁ ++ l₂) b =
      sendsWhileLocked l₁ b ++ sendsWhileLocked l₂ b' := by
  induction l₁ generalizing b with
  | nil => exact ⟨b, rfl⟩
  | cons e rest ih =>
    cases e with
    | lockEv => obtain ⟨b', h⟩ := ih true; exact ⟨b', by simpa [sendsWhileLocked] using h⟩
    | unlockEv => obtain ⟨b', h⟩ := ih false; exact ⟨b', by simpa [sendsWhileLocked] using h⟩
    | sendEv s m =>
      obtain ⟨b', h⟩ := ih b
      exact ⟨b', by cases b <;> simp [sendsWhileLocked, h]⟩
    | sendFailLogEv s => obtain ⟨b', h⟩ := ih b; exact ⟨b', by simpa [sendsWhileLocked] using h⟩
    | removeEv s => obtain ⟨b', h⟩ := ih b; exact ⟨b', by simpa [sendsWhileLocked] using h⟩
    | closeEv s => obtain ⟨b', h⟩ := ih b; exact ⟨b', by simpa [sendsWhileLocked] using h⟩
    | recvEv s => obtain ⟨b', h⟩ := ih b; exact ⟨b', by simpa [sendsWhileLocked] using h⟩
    | acceptLogEv c => obtain ⟨b', h⟩ := ih b; exact ⟨b', by simpa [sendsWhileLocked] using h⟩
    | connectLogEv => obtain ⟨b', h⟩ := ih b; exact ⟨b', by simpa [sendsWhileLocked] using h⟩
    | spawnEv s => obtain ⟨b', h⟩ := ih b; exact ⟨b', by simpa [sendsWhileLocked] using h⟩

/-- No event produced by the send loop of `broadcast_message` matches an
event that is neither a send of the broadcast message nor a failure log. -/
theorem count_flatMap_send_log (l : List Nat) (msg : String) (f : Nat → Bool)
    (e : SrvEv) (hsend : ∀ s, e ≠ SrvEv.sendEv s msg)
    (hlog : ∀ s, e ≠ SrvEv.sendFailLogEv s) :
    (l.flatMap (fun s => SrvEv.sendEv s msg ::
      (if f s then [SrvEv.sendFailLogEv s] else []))).count e = 0 := by
  induction l with
  | nil => rfl
  | cons a l ih =>
    rw [List.flatMap_cons, List.count_append, ih]
    by_cases h : f a <;>
      simp [h, List.count_cons, hsend a, hlog a]

/-- Each `broadcast_message` call acquires `clients_mutex` exactly once. -/
theorem count_lockEv_broadcast (cs : List Nat) (msg : String) (sender : Nat)
    (f : Nat → Bool) :
    (broadcast_message cs msg sender f).count SrvEv.lockEv = 1 := by
  unfold broadcast_message
  rw [List.count_append, List.count_cons,
    count_flatMap_send_log _ _ _ _ (fun s => by simp) (fun s => by simp)]
  simp

/-- Inside `broadcast_message`, every send happens with the mutex held. -/
theorem sendsWhileLocked_broadcast (cs : List Nat) (msg : String) (sender : Nat)
    (f : Nat → Bool) :
    sendsWhileLocked (broadcast_message cs msg sender f) false =
      cs.filter (fun s => s ≠ sender) := by
  unfold broadcast_message
  simp only [sendsWhileLocked]
  induction cs.filter (fun s => s ≠ sender) with
  | nil => simp [sendsWhileLocked]
  | cons a l ih =>
    simp only [List.flatMap_cons, List.cons_append, sendsWhileLocked]
    by_cases h : f a <;> simp only [h, if_true, if_false] <;>
      simpa [sendsWhileLocked] using ih

/-- The cast `(SOCKET)(-1)` used for the departure broadcast equals
`INVALID_SOCKET`, which is never a registered socket. -/
theorem minusOneAsSocket_eq : minusOneAsSocket = INVALID_SOCKET := by
  unfold minusOneAsSocket INVALID_SOCKET
  norm_num

/-- The closing trace of `handle_client` sends only inside its departure
broadcast: the surrounding receive, removal and close events send nothing. -/
theorem sendTargets_closing (sock : Nat) (bc : List SrvEv) :
    sendTargets (SrvEv.recvEv sock :: SrvEv.removeEv sock :: bc ++
      [SrvEv.closeEv sock]) = sendTargets bc := by
  unfold sendTargets
  rw [List.flatMap_append]
  simp

/-- The closing trace of `handle_client` acquires the mutex exactly as often
as its departure broadcast does. -/
theorem count_lockEv_closing (sock : Nat) (bc : List SrvEv) :
    (SrvEv.recvEv sock :: SrvEv.removeEv sock :: bc ++
      [SrvEv.closeEv sock]).count SrvEv.lockEv = bc.count SrvEv.lockEv := by
  rw [List.count_append, List.count_cons, List.count_cons]
  simp

/-- A socket absent from the initial registry and never added again is never
among the sockets sent to by the linearised operation sequence. -/
theorem not_mem_runSends (c : Nat) (ops : List Op) :
    ∀ reg : List Nat, c ∉ reg → Op.add c ∉ ops → c ∉ runSends reg ops := by
  induction ops with
  | nil =>
    intro reg _ _
    simp [runSends]
  | cons op rest ih =>
    intro reg hc hadd
    have hop : op ≠ Op.add c := fun h => hadd (h ▸ List.mem_cons_self op rest)
    have hadd' : Op.add c ∉ rest := fun h => hadd (List.mem_cons_of_mem _ h)
    have hpres : c ∉ applyOp reg op := by
      cases op with
      | add s =>
        have hs : s ≠ c := fun h => hop (by rw [h])
        simp only [applyOp, add_client, List.mem_append, List.mem_singleton]
        rintro (h | rfl)
        · exact hc h
        · exact hs rfl
      | remove s =>
        exact fun h => hc (List.mem_of_mem_filter h)
      | bcast m snd => exact hc
    rw [runSends, List.mem_append]
    rintro (h1 | h2)
    · cases op with
      | add s => simp [opSends] at h1
      | remove s => simp [opSends] at h1
      | bcast m snd => exact hc (List.mem_of_mem_filter h1)
    · exact ih _ hpres hadd' h2

/-! ## Claims -/

/-- C1: for every broadcast with sender `sender_socket`, the message is sent
exactly once to each socket currently in the registry that differs from the
sender, and never to the sender's own socket. -/
theorem C1_broadcast_once_to_each_other_client
    (client_sockets : List Nat) (message : String) (sender_socket : Nat)
    (sendFails : Nat → Bool) (hnd : client_sockets.Nodup) :
    (∀ c ∈ client_sockets, c ≠ sender_socket →
      (sendTargets (broadcast_message client_sockets message sender_socket
        sendFails)).count c = 1) ∧
    (sendTargets (broadcast_message client_sockets message sender_socket
      sendFails)).count sender_socket = 0 := by
  rw [sendTargets_broadcast]
  constructor
  · intro c hc hne
    exact List.count_eq_one_of_mem (hnd.filter _)
      (by simp [List.mem_filter, hc, hne])
  · exact List.count_eq_zero_of_not_mem (by simp [List.mem_filter])

/-- Witness for C1 at a concrete registry. -/
theorem C1_broadcast_once_to_each_other_client_witness :
    (∀ c ∈ [1, 2, 3], c ≠ 2 →
      (sendTargets (broadcast_message [1, 2, 3] "hi" 2 (fun _ => false))).count c = 1) ∧
    (sendTargets (broadcast_message [1, 2, 3] "hi" 2 (fun _ => false))).count 2 = 0 :=
  C1_broadcast_once_to_each_other_client [1, 2, 3] "hi" 2 (fun _ => false) (by decide)

/-- C3 counterexample: in `broadcast_message` the `std::lock_guard` holds
`clients_mutex` for the whole function body, so with registry `[1, 2]` and
sender `7` both sends are attempted while the mutex is held — the claim that
no send ever happens under the lock is false. -/
theorem C3_counterexample_sends_happen_under_lock :
    sendsWhileLocked (broadcast_message [1, 2] "m" 7 (fun _ => false)) false
      = [1, 2] ∧ ([1, 2] : List Nat) ≠ [] := by
  exact ⟨rfl, by decide⟩

/-- C3 amended: every send attempted by `broadcast_message` occurs while
`clients_mutex` is held; the lock is released only after the last send.  (The
code never copies the target list and releases the lock before sending.) -/
theorem C3_all_broadcast_sends_under_lock
    (client_sockets : List Nat) (message : String) (sender_socket : Nat)
    (sendFails : Nat → Bool) :
    sendsWhileLocked (broadcast_message client_sockets message sender_socket
        sendFails) false =
      sendTargets (broadcast_message client_sockets message sender_socket
        sendFails) := by
  rw [sendsWhileLocked_broadcast, sendTargets_broadcast]

/-- C4: when the send to a recipient `c` fails during a broadcast, the
failure is logged, a send is still attempted to every other registered
non-sender socket of the same call, and the registry is left unchanged by
the broadcast (in particular `c` is not removed by it). -/
theorem C4_send_failure_isolated
    (client_sockets : List Nat) (message : String) (sender_socket c : Nat)
    (sendFails : Nat → Bool) (hc : c ∈ client_sockets)
    (hne : c ≠ sender_socket) (hfail : sendFails c = true) :
    SrvEv.sendFailLogEv c ∈
      broadcast_message client_sockets message sender_socket sendFails ∧
    (∀ d ∈ client_sockets, d ≠ sender_socket →
      d ∈ sendTargets (broadcast_message client_sockets message sender_socket
        sendFails)) ∧
    (broadcast_run client_sockets message sender_socket sendFails).1 =
      client_sockets := by
  refine ⟨?_, ?_, rfl⟩
  · unfold broadcast_message
    rw [List.mem_append, List.mem_cons, List.mem_flatMap]
    refine Or.inl (Or.inr ⟨c, by simp [List.mem_filter, hc, hne], ?_⟩)
    simp [hfail]
  · intro d hd hdne
    rw [sendTargets_broadcast]
    simp [List.mem_filter, hd, hdne]

/-- Witness for C4: recipient 2 of registry `[1, 2, 3]` fails, sender is 9. -/
theorem C4_send_failure_isolated_witness :
    SrvEv.sendFailLogEv 2 ∈
      broadcast_message [1, 2, 3] "m" 9 (fun s => s == 2) ∧
    (∀ d ∈ [1, 2, 3], d ≠ 9 →
      d ∈ sendTargets (broadcast_message [1, 2, 3] "m" 9 (fun s => s == 2))) ∧
    (broadcast_run [1, 2, 3] "m" 9 (fun s => s == 2)).1 = [1, 2, 3] :=
  C4_send_failure_isolated [1, 2, 3] "m" 9 2 (fun s => s == 2)
    (by decide) (by decide) (by decide)

/-- C6: the erase–remove in `handle_client` is idempotent on the registry —
removing twice equals removing once, removing an absent socket is a no-op
producing no error (the operation is total), and a registry removal by itself
sends nothing, so a double removal produces no duplicate departure notice. -/
theorem C6_remove_idempotent (reg : List Nat) (s : Nat) :
    remove_client (remove_client reg s) s = remove_client reg s ∧
    (s ∉ reg → remove_client reg s = reg) ∧
    opSends reg (Op.remove s) = [] := by
  refine ⟨?_, ?_, rfl⟩
  · unfold remove_client
    rw [List.filter_filter]
    simp
  · intro h
    refine List.filter_eq_self.mpr fun a ha => ?_
    simp only [decide_eq_true_eq]
    rintro rfl
    exact h ha

/-- Witness for C6: socket 9 is absent from `[4, 7]`. -/
theorem C6_remove_idempotent_witness :
    remove_client [4, 7] 9 = [4, 7] ∧
    remove_client (remove_client [4, 7] 9) 9 = remove_client [4, 7] 9 :=
  ⟨(C6_remove_idempotent [4, 7] 9).2.1 (by decide),
    (C6_remove_idempotent [4, 7] 9).1⟩

/-- C7 counterexample: the accept loop's `push_back` performs no duplicate
check.  With socket 5 already registered, adding 5 again neither fails nor
leaves the registry unchanged — it produces `[5, 5]`, breaking the
at-most-once invariant the claim asserts is preserved. -/
theorem C7_counterexample_duplicate_add_accepted :
    (5 : Nat) ∈ [5] ∧ add_client [5] 5 ≠ [5] ∧
    ¬ (add_client [5] 5).Nodup := by
  refine ⟨by decide, by decide, by decide⟩

/-- C7 amended: `Add` unconditionally appends the connection with no
duplicate check; the resulting registry has each identity at most once
exactly when the previous registry did and the new identity was absent —
uniqueness relies on the transport handing out distinct live handles, not on
any check in `Add`. -/
theorem C7_add_appends_unconditionally (reg : List Nat) (s : Nat) :
    add_client reg s = reg ++ [s] ∧
    ((add_client reg s).Nodup ↔ reg.Nodup ∧ s ∉ reg) := by
  refine ⟨rfl, ?_⟩
  unfold add_client
  rw [List.nodup_append]
  simp [List.disjoint_singleton]

/-- C2: when `recv` returns `0` or an error (`bytes_received <= 0`), the
handler performs, in order, the removal of its socket from the registry, one
departure-notice broadcast, the `closesocket`, and then breaks out of the
loop — the trace is the same whatever further `recv` outcomes would have
followed, so no further receives or broadcasts occur for the session.  The
socket is absent from the resulting registry, the closing trace acquires the
mutex exactly once (one broadcast), and the departure notice is sent exactly
to the remaining registered sockets, each once. -/
theorem C2_close_sequence
    (cs : List Nat) (sock : Nat) (n : Int) (buf : String)
    (rest : List (Int × String)) (f : Nat → Bool)
    (hn : n ≤ 0) (hinv : INVALID_SOCKET ∉ cs) :
    session_loop cs sock ((n, buf) :: rest) f =
      (remove_client cs sock,
        SrvEv.recvEv sock :: SrvEv.removeEv sock ::
          broadcast_message (remove_client cs sock)
            (client_id sock ++ " has left the chat.") minusOneAsSocket f ++
          [SrvEv.closeEv sock]) ∧
    sock ∉ remove_client cs sock ∧
    sendTargets (SrvEv.recvEv sock :: SrvEv.removeEv sock ::
        broadcast_message (remove_client cs sock)
          (client_id sock ++ " has left the chat.") minusOneAsSocket f ++
        [SrvEv.closeEv sock]) = remove_client cs sock ∧
    (SrvEv.recvEv sock :: SrvEv.removeEv sock ::
        broadcast_message (remove_client cs sock)
          (client_id sock ++ " has left the chat.") minusOneAsSocket f ++
        [SrvEv.closeEv sock]).count SrvEv.lockEv = 1 := by
  have hn' : ¬ n > 0 := by omega
  refine ⟨?_, ?_, ?_, ?_⟩
  · simp [session_loop, handle_iter, hn']
  · simp [remove_client, List.mem_filter]
  · rw [sendTargets_closing, sendTargets_broadcast]
    refine List.filter_eq_self.mpr fun a ha => ?_
    have ha' : a ∈ cs := List.mem_of_mem_filter ha
    simp only [decide_eq_true_eq]
    rw [minusOneAsSocket_eq]
    rintro rfl
    exact hinv ha'
  · rw [count_lockEv_closing, count_lockEv_broadcast]

/-- Witness for C2 with registry `[5, 8]`, closing socket `5`, a pending
later receive that is never reached. -/
theorem C2_close_sequence_witness :
    session_loop [5, 8] 5 [(0, ""), (1, "x")] (fun _ => false) =
      (remove_client [5, 8] 5,
        SrvEv.recvEv 5 :: SrvEv.removeEv 5 ::
          broadcast_message (remove_client [5, 8] 5)
            (client_id 5 ++ " has left the chat.") minusOneAsSocket
            (fun _ => false) ++
          [SrvEv.closeEv 5]) ∧
    (5 : Nat) ∉ remove_client [5, 8] 5 :=
  ⟨(C2_close_sequence [5, 8] 5 0 "" [(1, "x")] (fun _ => false)
      (by decide) (by decide)).1,
    (C2_close_sequence [5, 8] 5 0 "" [(1, "x")] (fun _ => false)
      (by decide) (by decide)).2.1⟩

/-- C5: once a socket has been removed from the registry and is never added
again, no later linearised operation — in particular no broadcast — sends to
it.  (All registry accesses and all broadcast sends in the source hold
`clients_mutex`, so the concurrent execution linearises into such an
operation sequence.) -/
theorem C5_removed_never_targeted (reg : List Nat) (c : Nat) (ops : List Op)
    (hc : c ∉ reg) (hadd : Op.add c ∉ ops) :
    c ∉ runSends reg ops :=
  not_mem_runSends c ops reg hc hadd

/-- Witness for C5: socket 2 was removed (absent from `[1, 3]`); later
broadcasts and removals never send to it. -/
theorem C5_removed_never_targeted_witness :
    (2 : Nat) ∉ runSends [1, 3]
      [Op.bcast "m" 1, Op.remove 3, Op.bcast "x" 9] :=
  C5_removed_never_targeted [1, 3] 2
    [Op.bcast "m" 1, Op.remove 3, Op.bcast "x" 9] (by decide) (by decide)

/-- C8: on a receive of `n > 0` bytes (at most the 4096-byte buffer), the
iteration issues exactly one broadcast — one mutex acquisition — whose
message is the sender's identity tag `"Client <sock>: "` followed by exactly
the received bytes, unsplit; the registry is untouched and the loop
continues in the Active state. -/
theorem C8_active_receive_broadcasts_once
    (cs : List Nat) (sock : Nat) (n : Int) (buffer : String) (f : Nat → Bool)
    (hn : 0 < n) (hmax : n ≤ 4096) (hlen : buffer.length = n.toNat) :
    handle_iter cs sock n buffer f =
      (cs, broadcast_message cs (client_id sock ++ ": " ++ buffer) sock f,
        true) ∧
    (handle_iter cs sock n buffer f).2.1.count SrvEv.lockEv = 1 := by
  have h1 : handle_iter cs sock n buffer f =
      (cs, broadcast_message cs (client_id sock ++ ": " ++ buffer) sock f,
        true) := by
    simp [handle_iter, hn]
  exact ⟨h1, by rw [h1]; exact count_lockEv_broadcast _ _ _ _⟩

/-- Witness for C8: socket 1 receives the 5 bytes `"hello"`. -/
theorem C8_active_receive_broadcasts_once_witness :
    handle_iter [1, 2] 1 5 "hello" (fun _ => false) =
      ([1, 2],
        broadcast_message [1, 2] (client_id 1 ++ ": " ++ "hello") 1
          (fun _ => false),
        true) ∧
    (handle_iter [1, 2] 1 5 "hello" (fun _ => false)).2.1.count
      SrvEv.lockEv = 1 :=
  C8_active_receive_broadcasts_once [1, 2] 1 5 "hello" (fun _ => false)
    (by decide) (by decide) (by decide)

/-- C9 counterexample: `accept` failing with `WSAENOTSOCK` (10038, the
listening socket is no longer a socket — a fatal listening-socket error)
does not terminate the accept loop: the code hits `continue`
unconditionally, contradicting the claim's fatal-error exception. -/
theorem C9_counterexample_fatal_accept_error_continues :
    (accept_iter [] INVALID_SOCKET 10038).2.2 = LoopAction.continueLoop ∧
    LoopAction.continueLoop ≠ LoopAction.terminate := by
  exact ⟨by simp [accept_iter], by decide⟩

/-- C9 amended: on every accept error the server logs the error and
continues looping, with the registry unchanged and no handler spawned; no
accept error — fatal listening-socket errors included — ever terminates the
loop, whose every iteration ends in `continue`. -/
theorem C9_accept_error_logs_and_continues
    (client_sockets : List Nat) (errCode : Nat) :
    accept_iter client_sockets INVALID_SOCKET errCode =
      (client_sockets, [SrvEv.acceptLogEv errCode],
        LoopAction.continueLoop) ∧
    (∀ accepted : Nat,
      (accept_iter client_sockets accepted errCode).2.2 =
        LoopAction.continueLoop) := by
  constructor
  · simp [accept_iter]
  · intro a
    unfold accept_iter
    split <;> rfl

end ChatServer

namespace ChatClient

/-- The first element not dropped by `dropWhile` falsifies the predicate. -/
theorem dropWhile_head_not {α : Type} (p : α → Bool) :
    ∀ (l : List α) {x : α} {xs : List α}, l.dropWhile p = x :: xs →
      p x = false := by
  intro l
  induction l with
  | nil =>
    intro x xs h
    simp at h
  | cons a as ih =>
    intro x xs h
    rw [List.dropWhile_cons] at h
    by_cases hp : p a = true
    · rw [if_pos hp] at h
      exact ih h
    · rw [if_neg hp] at h
      injection h with h1 h2
      subst h1
      simpa using hp

/-- A line stored by `getline` never contains the newline delimiter. -/
theorem getline_no_newline {input line rest : List Char}
    (h : getline input = some (line, rest)) : '\n' ∉ line := by
  cases input with
  | nil => simp [getline] at h
  | cons c cs =>
    simp only [getline, Option.some.injEq, Prod.mk.injEq] at h
    obtain ⟨h1, -⟩ := h
    subst h1
    intro hmem
    have := List.mem_takeWhile_imp hmem
    simp at this

/-- A successful `getline` splits the input as line, consumed newline, remainder — or
returns the whole input as a final newline-less line. -/
theorem getline_decomp {input line rest : List Char}
    (h : getline input = some (line, rest)) :
    input = line ++ '\n' :: rest ∨ (rest = [] ∧ input = line) := by
  cases input with
  | nil => simp [getline] at h
  | cons c cs =>
    simp only [getline, Option.some.injEq, Prod.mk.injEq] at h
    obtain ⟨h1, h2⟩ := h
    cases hd : (c :: cs).dropWhile (fun ch => ch ≠ '\n') with
    | nil =>
      refine Or.inr ⟨?_, ?_⟩
      · rw [← h2, hd]
        rfl
      · rw [← h1]
        conv_lhs => rw [← List.takeWhile_append_dropWhile
          (fun ch => ch ≠ '\n') (c :: cs)]
        rw [hd, List.append_nil]
    | cons x xs =>
      have hx : x = '\n' := by
        have := dropWhile_head_not (fun ch => ch ≠ '\n') (c :: cs) hd
        simpa using this
      refine Or.inl ?_
      have hrest : rest = xs := by
        rw [← h2, hd]
        rfl
      subst hrest
      rw [← h1]
      subst hx
      conv_lhs => rw [← List.takeWhile_append_dropWhile
        (fun ch => ch ≠ '\n') (c :: cs)]
      rw [hd]

/-- With no send failures, the sent lines are exactly the non-empty lines of
the input, in order. -/
theorem send_messages_eq_filter (input : List Char) :
    send_messages (fun _ => false) input =
      (inputLines input).filter (fun l => !l.isEmpty) := by
  induction input using inputLines.induct with
  | case1 x h =>
    rw [send_messages, inputLines, h]
    rfl
  | case2 x line rest h ih =>
    rw [send_messages, inputLines, h]
    simp only [List.filter_cons]
    by_cases he : line.isEmpty <;> simp [he, ih]

/-- C10: over the modelled input stream, a line read by the send loop is sent
iff it is non-empty (sent lines are exactly the non-empty `getline` lines in
order), and the bytes of each line are the input's characters with the
terminating newline stripped: `getline` never stores a newline, and the
input splits as the line, its consumed newline, and the rest (or the line is
the final unterminated remainder). -/
theorem C10_send_iff_nonempty (input : List Char) :
    send_messages (fun _ => false) input =
      (inputLines input).filter (fun l => !l.isEmpty) ∧
    (∀ line rest, getline input = some (line, rest) →
      '\n' ∉ line ∧
        (input = line ++ '\n' :: rest ∨ (rest = [] ∧ input = line))) :=
  ⟨send_messages_eq_filter input,
    fun _ _ h => ⟨getline_no_newline h, getline_decomp h⟩⟩

/-- Witness for C10 on the input `"hi\n\nyo"`: lines `"hi"`, `""`, `"yo"`;
only the non-empty ones are sent, newline stripped. -/
theorem C10_send_iff_nonempty_witness :
    send_messages (fun _ => false) ['h', 'i', '\n', '\n', 'y', 'o'] =
      (inputLines ['h', 'i', '\n', '\n', 'y', 'o']).filter
        (fun l => !l.isEmpty) ∧
    ('\n' ∉ ['h', 'i'] ∧
      (['h', 'i', '\n', '\n', 'y', 'o'] = ['h', 'i'] ++ '\n' :: ['\n', 'y', 'o'] ∨
        (['\n', 'y', 'o'] = ([] : List Char) ∧
          ['h', 'i', '\n', '\n', 'y', 'o'] = ['h', 'i']))) :=
  ⟨(C10_send_iff_nonempty ['h', 'i', '\n', '\n', 'y', 'o']).1,
    (C10_send_iff_nonempty ['h', 'i', '\n', '\n', 'y', 'o']).2
      ['h', 'i'] ['\n', 'y', 'o'] (by decide)⟩

end ChatClient
